import Mathlib

/-!
Verification development for the taxonomy-enrichment agent
(src/taxnomy_agent.py). The Python program is shallowly embedded: each
pandas cell is an Option String (a missing value, NaN, is none), a data
frame is a List Row, the external GLM oracle and the NCBI taxonomy
service are function parameters, and every Python dict is an association
list updated in insertion order. All definitions are executable and
structurally recursive so concrete runs evaluate inside the kernel.
-/

namespace TaxAgent

/-! ## Python string primitives, re-implemented structurally.
The embedding works on the character list of a string so that every
operation reduces in the kernel. Semantics follow the Python methods
used by the source: str.strip, str.lower (ASCII range, which covers all
sentinel comparisons the source performs), str.replace and the
case-sensitive substring operator. -/

/-- ASCII whitespace as stripped by Python str.strip. -/
def isSpaceCh (c : Char) : Bool :=
  c == ' ' || c == Char.ofNat 9 || c == Char.ofNat 10 || c == Char.ofNat 13 ||
  c == Char.ofNat 11 || c == Char.ofNat 12

/-- Drop leading whitespace characters. -/
def dropSpaces : List Char → List Char
  | [] => []
  | c :: r => if isSpaceCh c then dropSpaces r else c :: r

/-- Characters of a string with surrounding whitespace removed, as
Python str.strip does. -/
def stripCh (l : List Char) : List Char :=
  (dropSpaces (dropSpaces l.reverse).reverse)

/-- Python str.strip. -/
def pyStrip (s : String) : String := String.mk (stripCh s.data)

/-- Lower-case one ASCII letter, as Python str.lower on the data the
source compares (sentinels and error keywords are ASCII). -/
def lowerChar (c : Char) : Char :=
  if c.toNat ≥ 65 && c.toNat ≤ 90 then Char.ofNat (c.toNat + 32) else c

/-- Python str.lower. -/
def pyLower (s : String) : String := String.mk (s.data.map lowerChar)

/-- Python str.replace applied with the star pattern: remove every star
character. -/
def removeStars (s : String) : String :=
  String.mk (s.data.filter (fun c => !(c == '*')))

/-- Whether pat occurs at the head of l. -/
def headMatches : List Char → List Char → Bool
  | [], _ => true
  | _ :: _, [] => false
  | a :: as, b :: bs => a == b && headMatches as bs

/-- Whether pat occurs somewhere in l. -/
def subMatches (pat : List Char) : List Char → Bool
  | [] => pat.isEmpty
  | c :: rest => headMatches pat (c :: rest) || subMatches pat rest

/-- The Python expression pat in s: case-sensitive substring test. -/
def containsSubstr (s pat : String) : Bool := subMatches pat.data s.data

/-- Decimal digit character. -/
def digitChar (n : Nat) : Char := Char.ofNat (48 + n)

/-- Fuel-driven decimal rendering of a natural number. -/
def natToStrAux : Nat → Nat → List Char
  | 0, _ => []
  | fuel + 1, n =>
      if n < 10 then [digitChar n]
      else natToStrAux fuel (n / 10) ++ [digitChar (n % 10)]

/-- Python str applied to a non-negative integer taxid. -/
def natToStr (n : Nat) : String := String.mk (natToStrAux (n + 1) n)

/-- A single-quote character, used by the not-found message format. -/
def sq : String := String.mk [Char.ofNat 39]

/-! ## Python dict model: an association list with unique keys, updated
in insertion order exactly as dict assignment does. -/

/-- Python d[k], returning none when the key is absent. -/
def dget {α : Type} : List (String × α) → String → Option α
  | [], _ => none
  | p :: rest, k => if p.1 == k then some p.2 else dget rest k

/-- Python d[k] = v: overwrite the entry of an existing key in place,
otherwise append the new entry at the end. -/
def dinsert {α : Type} : List (String × α) → String → α → List (String × α)
  | [], k, v => [(k, v)]
  | p :: rest, k, v => if p.1 == k then (p.1, v) :: rest else p :: dinsert rest k v

/-- Python d.values(), in insertion order. -/
def mapValues {α : Type} (m : List (String × α)) : List α := m.map (fun p => p.2)

/-- The keys of a dict model, in insertion order. -/
def dkeys {α : Type} (m : List (String × α)) : List String := m.map (fun p => p.1)

/-! ## Name normalizer (clean_name, is_invalid of the source). -/

/-- clean_name of the source: NaN passes through, otherwise remove stars
and strip surrounding whitespace. -/
def clean_name : Option String → Option String
  | none => none
  | some s => some (pyStrip (removeStars s))

/-- is_invalid of the source: NaN is invalid, and so is any value whose
stripped lower-cased text is empty, a dash, or the text nan. -/
def is_invalid : Option String → Bool
  | none => true
  | some s => [ "", "-", "nan" ].contains (pyLower (pyStrip s))

/-! ## GLM batch resolvers (batch_common_to_latin, batch_latin_to_common).
The single-name oracle (common_name_to_latin / latin_to_common_name of
the source) is a parameter call : Nat -> String taking the attempt
index, since each network invocation may answer differently. A call
whose answer contains the failure text models the except branch that
returns a string beginning with the GLM failure sentinel. The embedding
additionally records, for each processed name, how many oracle calls
were made and which sleeps were executed, so that retry and dedup
claims are statable. -/

/-- The outcome of the three-attempt retry loop for one name. -/
structure RetryOut where
  result : String
  attempts : Nat
  sleeps : List Nat
deriving DecidableEq, Repr

/-- The retry loop body: starting at attempt index i with the given
fuel (number of loop iterations left). On a failed attempt the source
sleeps two seconds times the one-based attempt number and continues;
when the fuel runs out the for-else branch records the bare failure
sentinel. -/
def glmRetryAux (call : Nat → String) : Nat → Nat → RetryOut
  | _, 0 => ⟨"GLM call failed", 0, []⟩
  | i, fuel + 1 =>
      let r := call i
      if containsSubstr r "GLM call failed" then
        let rest := glmRetryAux call (i + 1) fuel
        ⟨rest.result, rest.attempts + 1, 2 * (i + 1) :: rest.sleeps⟩
      else ⟨r, 1, []⟩

/-- The full retry policy of the source: retries = 3, starting at
attempt index 0. -/
def glmRetry (call : Nat → String) : RetryOut := glmRetryAux call 0 3

/-- What a batch resolver run produces: the result dict, the log of
oracle invocations as pairs of name and attempt index, and the log of
executed sleeps as pairs of name and duration in seconds. -/
structure BatchOut where
  map : List (String × String)
  calls : List (String × Nat)
  sleeps : List (String × Nat)
deriving DecidableEq, Repr

/-- The batch loop shared verbatim by batch_common_to_latin and
batch_latin_to_common: process the names in order, threading the result
dict. -/
def batchResolve (call : String → Nat → String) : List String → List (String × String) → BatchOut
  | [], m => ⟨m, [], []⟩
  | n :: rest, m =>
      let r := glmRetry (call n)
      let tail := batchResolve call rest (dinsert m n r.result)
      ⟨tail.map, (List.range r.attempts).map (fun i => (n, i)) ++ tail.calls,
        r.sleeps.map (fun s => (n, s)) ++ tail.sleeps⟩

/-- batch_common_to_latin of the source, with the single-name GLM call
abstracted as call. -/
def batch_common_to_latin (call : String → Nat → String) (common_names : List String) : BatchOut :=
  batchResolve call common_names []

/-- batch_latin_to_common of the source; its loop is identical to
batch_common_to_latin up to the direction of the abstracted oracle. -/
def batch_latin_to_common (call : String → Nat → String) (latin_names : List String) : BatchOut :=
  batchResolve call latin_names []

/-! ## Identifier lookup (batch_latin_to_taxid_ete3).
The NCBI service (client construction plus get_name_translator) is a
parameter svc returning either the raw translation dict (name to list
of integer taxids) or the message of the exception it raised. -/

/-- The not-found message format of the source. -/
def notFoundMsg (name : String) : String :=
  "Not found: " ++ sq ++ name ++ sq

/-- The keyword classification of the except branch: a cache keyword
wins, then a network keyword, else the generic error format. The
keyword search is over the lower-cased exception text. -/
def classifyTaxidError (e : String) : String :=
  let msg := pyLower e
  if [ "cache", "taxdump", "sqlite" ].any (fun k => containsSubstr msg k) then
    "Cache error: " ++ e
  else if [ "connection", "network", "download" ].any (fun k => containsSubstr msg k) then
    "Network error: " ++ e
  else "Error: " ++ e

/-- The fill-in loop of the except branch: every input name not already
present in the dict is mapped to the categorized error text. -/
def fillPending (err : String) : List String → List (String × String) → List (String × String)
  | [], m => m
  | n :: rest, m =>
      fillPending err rest (if (dget m n).isSome then m else dinsert m n err)

/-- The per-name loop over the raw translation dict: an absent name is
recorded as not found, a present name as the decimal text of the first
taxid of its list. Indexing an empty list raises, which surfaces as the
message the Python IndexError carries, together with the partial dict
built so far. -/
def taxidLoop (raw : List (String × List Nat)) :
    List String → List (String × String) → List (String × String) × Option String
  | [], m => (m, none)
  | n :: rest, m =>
      match dget raw n with
      | none => taxidLoop raw rest (dinsert m n (notFoundMsg n))
      | some ts =>
          match ts with
          | [] => (m, some "list index out of range")
          | t :: _ => taxidLoop raw rest (dinsert m n (natToStr t))

/-- batch_latin_to_taxid_ete3 of the source: empty input returns the
empty dict before the service is touched; otherwise one batch query is
issued and any exception (from construction, query or indexing) is
classified and assigned to every name still pending. -/
def batch_latin_to_taxid_ete3
    (svc : List String → Except String (List (String × List Nat)))
    (latin_names : List String) : List (String × String) :=
  if latin_names.isEmpty then []
  else
    match svc latin_names with
    | Except.error e => fillPending (classifyTaxidError e) latin_names []
    | Except.ok raw =>
        match taxidLoop raw latin_names [] with
        | (m, none) => m
        | (m, some e) => fillPending (classifyTaxidError e) latin_names m

/-! ## Rows and the reconciliation pipeline (process_taxonomy_csv).
A Row carries the three canonical columns and the three temporary
columns of the source; reading the csv, creating absent columns and
writing the output are I/O outside the embedded core. -/

/-- One data-frame row: the three canonical columns and the three
temporary buffers, each an optional string. -/
structure Row where
  common : Option String
  latin : Option String
  taxid : Option String
  temp_common : Option String := none
  temp_latin : Option String := none
  temp_taxid : Option String := none
deriving DecidableEq, Repr

/-- The external world of one run: the three GLM batch call sites and
the three NCBI call sites, each free to answer differently. glm1 backs
the primary common-to-latin batch, glm2 the fallback latin-to-common
batch, glm3 the attempt-2 common-to-latin batch; ncbi1, ncbi2, ncbi3
back the primary, attempt-1 and attempt-2 taxid queries. -/
structure Env where
  glm1 : String → Nat → String
  glm2 : String → Nat → String
  glm3 : String → Nat → String
  ncbi1 : List String → Except String (List (String × List Nat))
  ncbi2 : List String → Except String (List (String × List Nat))
  ncbi3 : List String → Except String (List (String × List Nat))

/-- Step 1 of the source on one row: clean both name columns; the
temporary buffers start as fresh all-missing columns. -/
def cleanRow (r : Row) : Row :=
  { r with common := clean_name r.common, latin := clean_name r.latin,
           temp_common := none, temp_latin := none, temp_taxid := none }

/-- The cleaned frame. -/
def cleanedDf (df0 : List Row) : List Row := df0.map cleanRow

/-- mask_primary of the source: the common name is valid. -/
def primaryRow (r : Row) : Bool := !(is_invalid r.common)

/-- mask_fallback of the source: invalid common name and valid latin
name. -/
def fallbackRow (r : Row) : Bool := is_invalid r.common && !(is_invalid r.latin)

/-- Rows outside both masks: both names invalid. -/
def neitherRow (r : Row) : Bool := is_invalid r.common && is_invalid r.latin

/-- The value filter both workflows apply before a taxid lookup batch
and before the attempt-2 resolve batch: drop invalid values and values
containing the failed or the unrecognizable text. -/
def keepName (n : String) : Bool :=
  !(is_invalid (some n)) && !(containsSubstr n "failed") && !(containsSubstr n "unrecognizable")

/-- pandas Series.unique: first occurrences in order, driven by the
list of values seen so far. -/
def uniqueAux {α : Type} [BEq α] (seen : List α) : List α → List α
  | [] => []
  | x :: xs => if seen.contains x then uniqueAux seen xs else x :: uniqueAux (x :: seen) xs

/-- pandas Series.unique over a list of values. -/
def uniqueList {α : Type} [BEq α] (l : List α) : List α := uniqueAux [] l

/-- pandas Series.fillna on one cell. -/
def fillna (a b : Option String) : Option String :=
  match a with
  | some v => some v
  | none => b

/-- The two-entry dict the merge step maps temp_latin through before
filling temp_taxid. -/
def sentinelMap (s : String) : Option String :=
  if s == "unrecognizable" then some "unrecognizable"
  else if s == "GLM call failed" then some "GLM call failed"
  else none

/-! ### Primary workflow (step 2 of the source). -/

/-- The unique valid common names of the primary partition. -/
def primUniqueCommon (df0 : List Row) : List String :=
  uniqueList (((cleanedDf df0).filter primaryRow).filterMap (fun r => r.common))

/-- latin_map of the primary workflow. -/
def primLatinMap (env : Env) (df0 : List Row) : List (String × String) :=
  (batch_common_to_latin env.glm1 (primUniqueCommon df0)).map

/-- unique_latin_names of the primary workflow: resolved values with
invalid, failed and unrecognizable outcomes dropped, deduplicated. -/
def primUniqueLatin (env : Env) (df0 : List Row) : List String :=
  uniqueList ((mapValues (primLatinMap env df0)).filter keepName)

/-- taxid_map of the primary workflow. -/
def primTaxidMap (env : Env) (df0 : List Row) : List (String × String) :=
  batch_latin_to_taxid_ete3 env.ncbi1 (primUniqueLatin env df0)

/-- The two primary assignments on one row: temp_latin from the common
name through latin_map, then temp_taxid from the new temp_latin through
taxid_map. Rows outside the mask keep their values. -/
def primUpdate (env : Env) (df0 : List Row) (r : Row) : Row :=
  if primaryRow r then
    let tl := r.common.bind (fun s => dget (primLatinMap env df0) s)
    { r with temp_latin := tl, temp_taxid := tl.bind (fun s => dget (primTaxidMap env df0) s) }
  else r

/-- The frame and the primary lookup batch after step 2. The guarded
branch mirrors the mask-sum test of the source: with an empty primary
partition no batch is built and no service is called. -/
def primaryOut (env : Env) (df0 : List Row) : List Row × List String :=
  let c := cleanedDf df0
  if 0 < (c.filter primaryRow).length then
    (c.map (primUpdate env df0), primUniqueLatin env df0)
  else (c, [])

/-! ### Fallback workflow, steps a and b (step 3 of the source). -/

/-- The unique valid latin names of the fallback partition. -/
def fbUniqueLatin (env : Env) (df0 : List Row) : List String :=
  uniqueList (((primaryOut env df0).1.filter fallbackRow).filterMap (fun r => r.latin))

/-- reverse_map of fallback step a. -/
def fbReverseMap (env : Env) (df0 : List Row) : List (String × String) :=
  (batch_latin_to_common env.glm2 (fbUniqueLatin env df0)).map

/-- taxid_map_attempt1 of fallback step b. -/
def fbTaxid1 (env : Env) (df0 : List Row) : List (String × String) :=
  batch_latin_to_taxid_ete3 env.ncbi2 (fbUniqueLatin env df0)

/-- The fallback assignments on one row: temp_common through
reverse_map, temp_latin set to the original latin name, temp_taxid from
that latin name through the attempt-1 taxid dict. -/
def fbUpdate (env : Env) (df0 : List Row) (r : Row) : Row :=
  if fallbackRow r then
    { r with temp_common := r.latin.bind (fun s => dget (fbReverseMap env df0) s),
             temp_latin := r.latin,
             temp_taxid := r.latin.bind (fun s => dget (fbTaxid1 env df0) s) }
  else r

/-- The frame, the attempt-1 lookup batch and taxid_map_attempt1 after
fallback steps a and b. -/
def fallbackBOut (env : Env) (df0 : List Row) : List Row × List String × List (String × String) :=
  let p := (primaryOut env df0).1
  if 0 < (p.filter fallbackRow).length then
    (p.map (fbUpdate env df0), fbUniqueLatin env df0, fbTaxid1 env df0)
  else (p, [], [])

/-- failed_latin_names of the source: the attempt-1 entries whose value
contains the not-found text or the capital-E error text. -/
def failedLatinNames (taxid1 : List (String × String)) : List String :=
  taxid1.filterMap (fun p =>
    if containsSubstr p.2 "Not found" || containsSubstr p.2 "Error" then some p.1 else none)

/-- mask_attempt2 of the source on one row: in the fallback mask and
with the latin column value among the failed latin names. -/
def attempt2Row (failed : List String) (r : Row) : Bool :=
  fallbackRow r &&
    (match r.latin with
     | some s => failed.contains s
     | none => false)

/-! ### Fallback step c, the retry cascade. -/

/-- The failed subset computed by the run. -/
def runFailed (env : Env) (df0 : List Row) : List String :=
  failedLatinNames (fallbackBOut env df0).2.2

/-- new_common_names of step c: the unique temp_common values of the
attempt-2 rows, with missing, invalid, failed and unrecognizable values
dropped. -/
def a2NewCommon (env : Env) (df0 : List Row) : List String :=
  (uniqueList (((fallbackBOut env df0).1.filter (attempt2Row (runFailed env df0))).map
      (fun r => r.temp_common))).filterMap
    (fun o =>
      match o with
      | some s => if keepName s then some s else none
      | none => none)

/-- forward_map of step c. -/
def a2ForwardMap (env : Env) (df0 : List Row) : List (String × String) :=
  (batch_common_to_latin env.glm3 (a2NewCommon env df0)).map

/-- new_latin_names of step c: the attempt-2 resolved values, filtered
and deduplicated. -/
def a2NewLatin (env : Env) (df0 : List Row) : List String :=
  uniqueList ((mapValues (a2ForwardMap env df0)).filter keepName)

/-- taxid_map_attempt2 of step c. -/
def a2Taxid2 (env : Env) (df0 : List Row) : List (String × String) :=
  batch_latin_to_taxid_ete3 env.ncbi3 (a2NewLatin env df0)

/-- The attempt-2 overwrite on one row: temp_latin from temp_common
through forward_map, temp_taxid from the new temp_latin through the
attempt-2 taxid dict; temp_common and every row outside mask_attempt2
are untouched. -/
def a2Update (env : Env) (df0 : List Row) (r : Row) : Row :=
  if attempt2Row (runFailed env df0) r then
    let tl := r.temp_common.bind (fun s => dget (a2ForwardMap env df0) s)
    { r with temp_latin := tl, temp_taxid := tl.bind (fun s => dget (a2Taxid2 env df0) s) }
  else r

/-- The frame, forward_map, taxid_map_attempt2 and the attempt-2 lookup
batch after step c. An empty failed subset skips the cascade. -/
def fallbackCOut (env : Env) (df0 : List Row) :
    List Row × List (String × String) × List (String × String) × List String :=
  let b := (fallbackBOut env df0).1
  if (runFailed env df0).isEmpty then (b, [], [], [])
  else (b.map (a2Update env df0), a2ForwardMap env df0, a2Taxid2 env df0, a2NewLatin env df0)

/-! ### Merge (steps 4 and 5 of the source). -/

/-- The sentinel carry of the merge step: a missing temp_taxid is
filled from temp_latin mapped through the two-sentinel dict. -/
def carryRow (r : Row) : Row :=
  { r with temp_taxid := fillna r.temp_taxid (r.temp_latin.bind sentinelMap) }

/-- The three fillna merges and the drop of the temporary columns. -/
def mergeRow (r : Row) : Row :=
  { common := fillna r.temp_common r.common,
    latin := fillna r.temp_latin r.latin,
    taxid := fillna r.temp_taxid r.taxid,
    temp_common := none, temp_latin := none, temp_taxid := none }

/-- The frame as it stands at the final three-column merge, after the
sentinel carry. -/
def premergeRows (env : Env) (df0 : List Row) : List Row :=
  (fallbackCOut env df0).1.map carryRow

/-- The core of process_taxonomy_csv: clean, partition, primary and
fallback workflows, retry cascade, merge. Reading and writing the csv
around it is I/O outside the embedding. -/
def process_taxonomy_csv (env : Env) (df0 : List Row) : List Row :=
  (premergeRows env df0).map mergeRow

/-! ## Dict lemmas. -/

theorem dget_dinsert_self {α : Type} (m : List (String × α)) (k : String) (v : α) :
    dget (dinsert m k v) k = some v := by
  induction m with
  | nil => simp [dinsert, dget]
  | cons p rest ih =>
      by_cases h : p.1 == k
      · simp [dinsert, dget, h]
      · simp [dinsert, dget, h, ih]

theorem dget_dinsert_ne {α : Type} (m : List (String × α)) (k k' : String) (v : α)
    (h : k' ≠ k) : dget (dinsert m k v) k' = dget m k' := by
  have hkk : ¬ (k == k') = true := by
    simp only [beq_iff_eq]
    exact fun hh => h hh.symm
  induction m with
  | nil => simp [dinsert, dget, hkk]
  | cons p rest ih =>
      by_cases hp : p.1 == k
      · have hpk : p.1 = k := by simpa using hp
        have hp' : ¬ (p.1 == k') = true := by rw [hpk]; exact hkk
        simp [dinsert, dget, hp, hp', hpk, hkk]
      · by_cases hq : p.1 == k'
        · simp [dinsert, dget, hp, hq]
        · simp [dinsert, dget, hp, hq, ih]

theorem dkeys_nil {α : Type} : dkeys ([] : List (String × α)) = [] := rfl

theorem dkeys_cons {α : Type} (p : String × α) (m : List (String × α)) :
    dkeys (p :: m) = p.1 :: dkeys m := rfl

theorem dkeys_dinsert {α : Type} (m : List (String × α)) (k : String) (v : α) :
    dkeys (dinsert m k v) = if k ∈ dkeys m then dkeys m else dkeys m ++ [k] := by
  induction m with
  | nil => simp [dinsert, dkeys]
  | cons p rest ih =>
      by_cases hp : p.1 = k
      · have hbeq : (p.1 == k) = true := by simpa using hp
        have hmem : k ∈ dkeys (p :: rest) := by simp [dkeys_cons, hp]
        rw [if_pos hmem, dinsert, if_pos hbeq, dkeys_cons, dkeys_cons]
      · have hbeq : ¬ ((p.1 == k) = true) := by simpa using hp
        rw [dinsert, if_neg hbeq, dkeys_cons]
        by_cases hr : k ∈ dkeys rest
        · have hmem : k ∈ dkeys (p :: rest) := by
            rw [dkeys_cons]
            exact List.mem_cons_of_mem _ hr
          rw [if_pos hmem, ih, if_pos hr, dkeys_cons]
        · have hmem : k ∉ dkeys (p :: rest) := by
            rw [dkeys_cons, List.mem_cons, not_or]
            exact ⟨fun hh => hp hh.symm, hr⟩
          rw [if_neg hmem, ih, if_neg hr, dkeys_cons, List.cons_append]

theorem mem_dkeys_dinsert {α : Type} (m : List (String × α)) (k a : String) (v : α)
    (h : a ∈ dkeys (dinsert m k v)) : a = k ∨ a ∈ dkeys m := by
  rw [dkeys_dinsert] at h
  by_cases hc : k ∈ dkeys m
  · rw [if_pos hc] at h
    exact Or.inr h
  · rw [if_neg hc] at h
    rcases List.mem_append.mp h with h1 | h1
    · exact Or.inr h1
    · exact Or.inl (by simpa using h1)

theorem dkeys_nodup_dinsert {α : Type} (m : List (String × α)) (k : String) (v : α)
    (h : (dkeys m).Nodup) : (dkeys (dinsert m k v)).Nodup := by
  rw [dkeys_dinsert]
  by_cases hc : k ∈ dkeys m
  · simpa [hc] using h
  · rw [if_neg hc, List.nodup_append_comm]
    exact List.Nodup.cons hc h

theorem dget_none_of_not_mem_dkeys {α : Type} (m : List (String × α)) (k : String)
    (h : k ∉ dkeys m) : dget m k = none := by
  induction m with
  | nil => rfl
  | cons p rest ih =>
      simp only [dkeys, List.map_cons, List.mem_cons, not_or] at h
      have hne : ¬ (p.1 == k) = true := by
        simpa using fun hh => h.1 hh.symm
      simp [dget, hne, ih (by simpa [dkeys] using h.2)]

theorem mem_dkeys_of_dget_isSome {α : Type} (m : List (String × α)) (k : String)
    (h : (dget m k).isSome = true) : k ∈ dkeys m := by
  by_contra hk
  rw [dget_none_of_not_mem_dkeys m k hk] at h
  simp at h

theorem dget_mem {α : Type} (m : List (String × α)) (k : String) (v : α)
    (h : dget m k = some v) : (k, v) ∈ m := by
  induction m with
  | nil => simp [dget] at h
  | cons p rest ih =>
      by_cases hp : p.1 == k
      · rw [dget, if_pos hp] at h
        have : p = (k, v) := by
          cases p
          simp only [Prod.mk.injEq]
          exact ⟨by simpa using hp, by simpa using h⟩
        simp [this]
      · rw [dget, if_neg hp] at h
        exact List.mem_cons_of_mem _ (ih h)

/-! ## uniqueList lemmas. -/

theorem mem_uniqueAux {α : Type} [BEq α] [LawfulBEq α] (l : List α) :
    ∀ (seen : List α) (a : α), a ∈ uniqueAux seen l ↔ a ∈ l ∧ a ∉ seen := by
  induction l with
  | nil => intro seen a; simp [uniqueAux]
  | cons x xs ih =>
      intro seen a
      by_cases hx : seen.contains x
      · rw [uniqueAux, if_pos hx, ih seen a]
        constructor
        · exact fun h => ⟨List.mem_cons_of_mem _ h.1, h.2⟩
        · rintro ⟨h1, h2⟩
          rcases List.mem_cons.mp h1 with h3 | h3
          · exact absurd (h3 ▸ (by simpa using hx)) h2
          · exact ⟨h3, h2⟩
      · rw [uniqueAux, if_neg hx]
        constructor
        · intro h
          rcases List.mem_cons.mp h with h1 | h1
          · refine ⟨by simp [h1], ?_⟩
            intro hs
            exact hx (by rw [h1] at hs; simpa using hs)
          · rcases (ih (x :: seen) a).mp h1 with ⟨h2, h3⟩
            exact ⟨List.mem_cons_of_mem _ h2, fun hs => h3 (List.mem_cons_of_mem _ hs)⟩
        · rintro ⟨h1, h2⟩
          rcases List.mem_cons.mp h1 with h3 | h3
          · exact h3 ▸ List.mem_cons_self _ _
          · by_cases hax : a = x
            · exact hax ▸ List.mem_cons_self _ _
            · refine List.mem_cons_of_mem _ ((ih (x :: seen) a).mpr ⟨h3, ?_⟩)
              intro hs
              rcases List.mem_cons.mp hs with h4 | h4
              · exact hax h4
              · exact h2 h4

theorem mem_uniqueList {α : Type} [BEq α] [LawfulBEq α] (l : List α) (a : α) :
    a ∈ uniqueList l ↔ a ∈ l := by
  rw [uniqueList, mem_uniqueAux]
  simp

/-! ## Retry-loop lemmas. -/

theorem glmRetry_all_failed (call : Nat → String)
    (h : ∀ i, containsSubstr (call i) "GLM call failed" = true) :
    glmRetry call = ⟨"GLM call failed", 3, [2, 4, 6]⟩ := by
  simp [glmRetry, glmRetryAux, h 0, h 1, h 2]

theorem glmRetry_first_success (call : Nat → String)
    (h : containsSubstr (call 0) "GLM call failed" = false) :
    glmRetry call = ⟨call 0, 1, []⟩ := by
  simp [glmRetry, glmRetryAux, h]

theorem glmRetry_attempts_bounds (call : Nat → String) :
    1 ≤ (glmRetry call).attempts ∧ (glmRetry call).attempts ≤ 3 := by
  rw [glmRetry]
  by_cases h0 : containsSubstr (call 0) "GLM call failed"
  · by_cases h1 : containsSubstr (call 1) "GLM call failed"
    · by_cases h2 : containsSubstr (call 2) "GLM call failed"
      · simp [glmRetryAux, h0, h1, h2]
      · simp [glmRetryAux, h0, h1, h2]
    · simp [glmRetryAux, h0, h1]
  · simp [glmRetryAux, h0]

/-! ## Batch-resolver lemmas. -/

theorem dget_batchResolve_map (call : String → Nat → String) (names : List String) :
    ∀ (m : List (String × String)) (k : String),
      dget (batchResolve call names m).map k =
        if k ∈ names then some (glmRetry (call k)).result else dget m k := by
  induction names with
  | nil => intro m k; simp [batchResolve]
  | cons n rest ih =>
      intro m k
      rw [batchResolve]
      rw [ih]
      by_cases hk : k ∈ rest
      · rw [if_pos hk, if_pos (List.mem_cons_of_mem _ hk)]
      · rw [if_neg hk]
        by_cases hnk : k = n
        · subst hnk
          rw [dget_dinsert_self, if_pos (List.mem_cons_self _ _)]
        · rw [dget_dinsert_ne m n k _ hnk]
          rw [if_neg (by rw [List.mem_cons, not_or]; exact ⟨hnk, hk⟩)]

theorem batchResolve_map_keys_sub (call : String → Nat → String) (names : List String)
    (m : List (String × String)) (k : String)
    (h : (dget (batchResolve call names m).map k).isSome = true) :
    k ∈ names ∨ (dget m k).isSome = true := by
  rw [dget_batchResolve_map] at h
  by_cases hk : k ∈ names
  · exact Or.inl hk
  · rw [if_neg hk] at h
    exact Or.inr h

theorem batchResolve_map_keys_nodup (call : String → Nat → String) (names : List String) :
    ∀ (m : List (String × String)), (dkeys m).Nodup →
      (dkeys (batchResolve call names m).map).Nodup := by
  induction names with
  | nil => intro m h; simpa [batchResolve] using h
  | cons n rest ih =>
      intro m h
      rw [batchResolve]
      exact ih _ (dkeys_nodup_dinsert m n _ h)

theorem batchResolve_calls_filter (call : String → Nat → String) (k : String)
    (names : List String) : ∀ (m : List (String × String)),
      ((batchResolve call names m).calls.filter (fun c => c.1 == k)).length =
        ((names.filter (fun n => n == k)).map (fun n => (glmRetry (call n)).attempts)).sum := by
  induction names with
  | nil => intro m; simp [batchResolve]
  | cons n rest ih =>
      intro m
      rw [batchResolve]
      simp only [List.filter_append, List.length_append]
      rw [ih]
      by_cases hn : (n == k) = true
      · have hall : ((List.range (glmRetry (call n)).attempts).map (fun i => (n, i))).filter
            (fun c => c.1 == k) =
            (List.range (glmRetry (call n)).attempts).map (fun i => (n, i)) := by
          apply List.filter_eq_self.mpr
          intro a ha
          rcases List.mem_map.mp ha with ⟨i, _, hi⟩
          rw [← hi]
          exact hn
        rw [hall, List.filter_cons, if_pos hn, List.map_cons, List.sum_cons,
          List.length_map, List.length_range]
      · have hnone : ((List.range (glmRetry (call n)).attempts).map (fun i => (n, i))).filter
            (fun c => c.1 == k) = [] := by
          apply List.filter_eq_nil_iff.mpr
          intro a ha
          rcases List.mem_map.mp ha with ⟨i, _, hi⟩
          rw [← hi]
          simpa using hn
        rw [hnone, List.filter_cons, if_neg hn, List.length_nil, Nat.zero_add]

theorem batchResolve_sleeps_filter (call : String → Nat → String) (k : String)
    (names : List String) : ∀ (m : List (String × String)),
      ((batchResolve call names m).sleeps.filter (fun c => c.1 == k)).map (fun c => c.2) =
        (names.filter (fun n => n == k)).foldr
          (fun n acc => (glmRetry (call n)).sleeps ++ acc) [] := by
  induction names with
  | nil => intro m; simp [batchResolve]
  | cons n rest ih =>
      intro m
      rw [batchResolve]
      simp only [List.filter_append, List.map_append]
      rw [ih]
      by_cases hn : (n == k) = true
      · have hall : (((glmRetry (call n)).sleeps.map (fun s => (n, s))).filter
            (fun c => c.1 == k)).map (fun c => c.2) = (glmRetry (call n)).sleeps := by
          have hf : ((glmRetry (call n)).sleeps.map (fun s => (n, s))).filter
              (fun c => c.1 == k) = (glmRetry (call n)).sleeps.map (fun s => (n, s)) := by
            apply List.filter_eq_self.mpr
            intro a ha
            rcases List.mem_map.mp ha with ⟨i, _, hi⟩
            rw [← hi]
            exact hn
          rw [hf, List.map_map]
          simp
        rw [hall, List.filter_cons, if_pos hn, List.foldr_cons]
      · have hnone : ((glmRetry (call n)).sleeps.map (fun s => (n, s))).filter
            (fun c => c.1 == k) = [] := by
          apply List.filter_eq_nil_iff.mpr
          intro a ha
          rcases List.mem_map.mp ha with ⟨i, _, hi⟩
          rw [← hi]
          simpa using hn
        rw [hnone, List.filter_cons, if_neg hn, List.map_nil, List.nil_append]

/-! ## Identifier-lookup lemmas. -/

theorem dget_fillPending (err : String) (names : List String) :
    ∀ (m : List (String × String)) (k : String),
      dget (fillPending err names m) k =
        if (dget m k).isSome then dget m k
        else if k ∈ names then some err else none := by
  induction names with
  | nil =>
      intro m k
      rw [fillPending]
      by_cases h : (dget m k).isSome
      · rw [if_pos h]
      · rw [if_neg h, if_neg (List.not_mem_nil k)]
        exact Option.not_isSome_iff_eq_none.mp h
  | cons n rest ih =>
      intro m k
      rw [fillPending]
      by_cases hm : (dget m n).isSome
      · rw [if_pos hm, ih]
        by_cases hk : (dget m k).isSome
        · rw [if_pos hk, if_pos hk]
        · rw [if_neg hk, if_neg hk]
          by_cases hkn : k = n
          · subst hkn
            exact absurd hm hk
          · by_cases hkr : k ∈ rest
            · rw [if_pos hkr, if_pos (List.mem_cons_of_mem _ hkr)]
            · rw [if_neg hkr, if_neg (by rw [List.mem_cons, not_or]; exact ⟨hkn, hkr⟩)]
      · rw [if_neg hm, ih]
        by_cases hkn : k = n
        · subst hkn
          rw [dget_dinsert_self]
          simp only [Option.isSome_some, if_true, if_pos (List.mem_cons_self k rest)]
          rw [if_neg (by simpa using hm)]
        · rw [dget_dinsert_ne m n k err hkn]
          by_cases hk : (dget m k).isSome
          · rw [if_pos hk, if_pos hk]
          · rw [if_neg hk, if_neg hk]
            by_cases hkr : k ∈ rest
            · rw [if_pos hkr, if_pos (List.mem_cons_of_mem _ hkr)]
            · rw [if_neg hkr, if_neg (by rw [List.mem_cons, not_or]; exact ⟨hkn, hkr⟩)]

theorem taxidLoop_keys_sub (raw : List (String × List Nat)) (names : List String) :
    ∀ (m : List (String × String)) (k : String),
      (dget (taxidLoop raw names m).1 k).isSome = true →
        k ∈ names ∨ (dget m k).isSome = true := by
  induction names with
  | nil => intro m k h; exact Or.inr h
  | cons n rest ih =>
      intro m k h
      rw [taxidLoop] at h
      by_cases hkn : k = n
      · exact Or.inl (hkn ▸ List.mem_cons_self _ _)
      · have step : ∀ (m' : List (String × String)),
            (dget (taxidLoop raw rest m').1 k).isSome = true →
            dget m' k = dget m k → k ∈ n :: rest ∨ (dget m k).isSome = true := by
          intro m' h' hval
          rcases ih m' k h' with h1 | h1
          · exact Or.inl (List.mem_cons_of_mem _ h1)
          · rw [hval] at h1
            exact Or.inr h1
        cases hraw : dget raw n with
        | none =>
            rw [hraw] at h
            exact step _ h (dget_dinsert_ne m n k _ hkn)
        | some ts =>
            cases ts with
            | nil =>
                rw [hraw] at h
                exact Or.inr h
            | cons t tl =>
                rw [hraw] at h
                exact step _ h (dget_dinsert_ne m n k _ hkn)

theorem taxidLoop_keys_nodup (raw : List (String × List Nat)) (names : List String) :
    ∀ (m : List (String × String)), (dkeys m).Nodup →
      (dkeys (taxidLoop raw names m).1).Nodup := by
  induction names with
  | nil => intro m h; exact h
  | cons n rest ih =>
      intro m h
      rw [taxidLoop]
      cases hraw : dget raw n with
      | none => exact ih _ (dkeys_nodup_dinsert m n _ h)
      | some ts =>
          cases ts with
          | nil => exact h
          | cons t tl => exact ih _ (dkeys_nodup_dinsert m n _ h)

theorem fillPending_keys_nodup (err : String) (names : List String) :
    ∀ (m : List (String × String)), (dkeys m).Nodup →
      (dkeys (fillPending err names m)).Nodup := by
  induction names with
  | nil => intro m h; exact h
  | cons n rest ih =>
      intro m h
      rw [fillPending]
      by_cases hm : (dget m n).isSome
      · rw [if_pos hm]
        exact ih m h
      · rw [if_neg hm]
        exact ih _ (dkeys_nodup_dinsert m n err h)

theorem batch_taxid_keys_nodup (svc : List String → Except String (List (String × List Nat)))
    (names : List String) : (dkeys (batch_latin_to_taxid_ete3 svc names)).Nodup := by
  rw [batch_latin_to_taxid_ete3]
  by_cases he : names.isEmpty
  · simp [he, dkeys]
  · rw [if_neg he]
    split
    · exact fillPending_keys_nodup _ names [] (by simp [dkeys])
    · rename_i raw heq
      split
      · rename_i m hl
        have h2 := taxidLoop_keys_nodup raw names [] (by simp [dkeys])
        rw [hl] at h2
        exact h2
      · rename_i m e hl
        apply fillPending_keys_nodup
        have h2 := taxidLoop_keys_nodup raw names [] (by simp [dkeys])
        rw [hl] at h2
        exact h2

theorem dget_batch_taxid_none (svc : List String → Except String (List (String × List Nat)))
    (names : List String) (k : String) (hk : k ∉ names) :
    dget (batch_latin_to_taxid_ete3 svc names) k = none := by
  rw [batch_latin_to_taxid_ete3]
  by_cases he : names.isEmpty
  · simp [he, dget]
  · rw [if_neg he]
    split
    · rw [dget_fillPending]
      simp [dget, hk]
    · rename_i raw heq
      split
      · rename_i m hl
        by_contra hcon
        have hs : (dget (taxidLoop raw names []).1 k).isSome = true := by
          rw [hl]
          cases hd : dget m k with
          | none => exact absurd hd hcon
          | some v => simp [hd]
        rcases taxidLoop_keys_sub raw names [] k hs with h1 | h1
        · exact hk h1
        · simp [dget] at h1
      · rename_i m e hl
        have hm : dget m k = none := by
          by_contra hcon
          have hs : (dget (taxidLoop raw names []).1 k).isSome = true := by
            rw [hl]
            cases hd : dget m k with
            | none => exact absurd hd hcon
            | some v => simp [hd]
          rcases taxidLoop_keys_sub raw names [] k hs with h1 | h1
          · exact hk h1
          · simp [dget] at h1
        rw [dget_fillPending, hm]
        simp [hk]

theorem dget_batch_taxid_error (svc : List String → Except String (List (String × List Nat)))
    (names : List String) (e : String) (hsvc : svc names = Except.error e)
    (hne : ¬ names.isEmpty) (k : String) (hk : k ∈ names) :
    dget (batch_latin_to_taxid_ete3 svc names) k = some (classifyTaxidError e) := by
  rw [batch_latin_to_taxid_ete3, if_neg hne, hsvc]
  rw [dget_fillPending]
  simp [dget, hk]

/-! ## Pipeline stage lemmas: each stage acts row by row. -/

theorem cleanedDf_getElem (df0 : List Row) (i : Nat) :
    (cleanedDf df0)[i]? = (df0[i]?).map cleanRow := by
  simp [cleanedDf, List.getElem?_map]

theorem primaryOut_rows_getElem (env : Env) (df0 : List Row) (i : Nat) :
    (primaryOut env df0).1[i]? = ((cleanedDf df0)[i]?).map (primUpdate env df0) := by
  rw [primaryOut]
  by_cases h : 0 < ((cleanedDf df0).filter primaryRow).length
  · simp only [h, if_true]
    simp [List.getElem?_map]
  · simp only [h, if_false]
    have hnil : (cleanedDf df0).filter primaryRow = [] :=
      List.length_eq_zero.mp (Nat.eq_zero_of_not_pos h)
    cases hc : (cleanedDf df0)[i]? with
    | none => rfl
    | some r =>
        have hmem : r ∈ cleanedDf df0 := List.getElem?_mem hc
        have hmask : primaryRow r = false := by
          have := List.filter_eq_nil_iff.mp hnil r hmem
          simpa using this
        simp [primUpdate, hmask]

theorem fallbackBOut_rows_getElem (env : Env) (df0 : List Row) (i : Nat) :
    (fallbackBOut env df0).1[i]? = ((primaryOut env df0).1[i]?).map (fbUpdate env df0) := by
  rw [fallbackBOut]
  by_cases h : 0 < ((primaryOut env df0).1.filter fallbackRow).length
  · simp only [h, if_true]
    simp [List.getElem?_map]
  · simp only [h, if_false]
    have hnil : (primaryOut env df0).1.filter fallbackRow = [] :=
      List.length_eq_zero.mp (Nat.eq_zero_of_not_pos h)
    cases hc : (primaryOut env df0).1[i]? with
    | none => rfl
    | some r =>
        have hmem : r ∈ (primaryOut env df0).1 := List.getElem?_mem hc
        have hmask : fallbackRow r = false := by
          have := List.filter_eq_nil_iff.mp hnil r hmem
          simpa using this
        simp [fbUpdate, hmask]

theorem attempt2Row_nil (r : Row) : attempt2Row [] r = false := by
  cases h : r.latin with
  | none => simp [attempt2Row, h]
  | some s => simp [attempt2Row, h, List.contains]

theorem fallbackCOut_rows_getElem (env : Env) (df0 : List Row) (i : Nat) :
    (fallbackCOut env df0).1[i]? = ((fallbackBOut env df0).1[i]?).map (a2Update env df0) := by
  rw [fallbackCOut]
  by_cases h : (runFailed env df0).isEmpty
  · simp only [h, if_true]
    have hf : runFailed env df0 = [] := by simpa using h
    cases hc : (fallbackBOut env df0).1[i]? with
    | none => rfl
    | some r =>
        have : a2Update env df0 r = r := by
          rw [a2Update, hf, attempt2Row_nil, if_neg (by simp)]
        simp [this]
  · simp only [h, if_false]
    simp [List.getElem?_map]

theorem process_getElem (env : Env) (df0 : List Row) (i : Nat) :
    (process_taxonomy_csv env df0)[i]? =
      ((fallbackCOut env df0).1[i]?).map (fun r => mergeRow (carryRow r)) := by
  rw [process_taxonomy_csv, premergeRows]
  rw [List.getElem?_map, List.getElem?_map, Option.map_map]
  rfl

/-! ## Partition counting. -/

theorem partition_count (l : List Row) :
    (l.filter primaryRow).length + (l.filter fallbackRow).length +
      (l.filter neitherRow).length = l.length := by
  induction l with
  | nil => simp
  | cons r t ih =>
      rw [List.filter_cons, List.filter_cons, List.filter_cons]
      cases hc : is_invalid r.common with
      | false =>
          have h1 : primaryRow r = true := by simp [primaryRow, hc]
          have h2 : fallbackRow r = false := by simp [fallbackRow, hc]
          have h3 : neitherRow r = false := by simp [neitherRow, hc]
          simp [h1, h2, h3]
          omega
      | true =>
          have h1 : primaryRow r = false := by simp [primaryRow, hc]
          cases hl : is_invalid r.latin with
          | false =>
              have h2 : fallbackRow r = true := by simp [fallbackRow, hc, hl]
              have h3 : neitherRow r = false := by simp [neitherRow, hc, hl]
              simp [h1, h2, h3]
              omega
          | true =>
              have h2 : fallbackRow r = false := by simp [fallbackRow, hc, hl]
              have h3 : neitherRow r = true := by simp [neitherRow, hc, hl]
              simp [h1, h2, h3]
              omega

/-! ## Sentinel and digit lemmas. -/

theorem keepName_false_of_sub_unrec (s : String)
    (h : containsSubstr s "unrecognizable" = true) : keepName s = false := by
  simp [keepName, h]

theorem subMatches_head_mem (c : Char) (pr : List Char) :
    ∀ (l : List Char), subMatches (c :: pr) l = true → c ∈ l := by
  intro l
  induction l with
  | nil => intro h; simp [subMatches, List.isEmpty] at h
  | cons x rest ih =>
      intro h
      rw [subMatches, Bool.or_eq_true] at h
      rcases h with h1 | h1
      · rw [headMatches, Bool.and_eq_true] at h1
        have hcx : c = x := by simpa using h1.1
        rw [hcx]
        exact List.mem_cons_self _ _
      · exact List.mem_cons_of_mem _ (ih h1)

theorem digitChar_le (d : Nat) (h : d < 10) : (digitChar d).toNat ≤ 57 := by
  interval_cases d <;> decide

theorem natToStrAux_digits (fuel : Nat) :
    ∀ (n : Nat) (c : Char), c ∈ natToStrAux fuel n → c.toNat ≤ 57 := by
  induction fuel with
  | zero => intro n c h; simp [natToStrAux] at h
  | succ f ih =>
      intro n c h
      rw [natToStrAux] at h
      by_cases hn : n < 10
      · rw [if_pos hn] at h
        have hc : c = digitChar n := by simpa using h
        rw [hc]
        exact digitChar_le n hn
      · rw [if_neg hn] at h
        rcases List.mem_append.mp h with h1 | h1
        · exact ih _ c h1
        · have hc : c = digitChar (n % 10) := by simpa using h1
          rw [hc]
          exact digitChar_le (n % 10) (Nat.mod_lt _ (by omega))

theorem natToStr_no_retry_marker (t : Nat) :
    containsSubstr (natToStr t) "Not found" = false ∧
      containsSubstr (natToStr t) "Error" = false := by
  constructor
  · cases h : containsSubstr (natToStr t) "Not found" with
    | false => rfl
    | true =>
        exfalso
        have hdata : ("Not found").data = 'N' :: "ot found".data := rfl
        rw [containsSubstr, hdata] at h
        have hmem := subMatches_head_mem _ _ _ h
        have := natToStrAux_digits (t + 1) t 'N' (by simpa [natToStr] using hmem)
        simp at this
  · cases h : containsSubstr (natToStr t) "Error" with
    | false => rfl
    | true =>
        exfalso
        have hdata : ("Error").data = 'E' :: "rror".data := rfl
        rw [containsSubstr, hdata] at h
        have hmem := subMatches_head_mem _ _ _ h
        have := natToStrAux_digits (t + 1) t 'E' (by simpa [natToStr] using hmem)
        simp at this

/-! ## Concrete data for closed witnesses. -/

/-- A concrete external world for closed evaluations: the oracle
resolves every common name to Felis catus, the reverse oracle answers
mystery beast, and the NCBI service knows Felis catus with taxid 9685
on the primary and attempt-2 call sites while the attempt-1 call site
finds nothing. -/
def demoEnv : Env :=
  { glm1 := fun _ _ => "Felis catus",
    glm2 := fun _ _ => "mystery beast",
    glm3 := fun _ _ => "Felis catus",
    ncbi1 := fun _ => Except.ok [("Felis catus", [9685])],
    ncbi2 := fun _ => Except.ok [],
    ncbi3 := fun _ => Except.ok [("Felis catus", [9685])] }

/-- A one-row frame with a valid common name. -/
def demoDf : List Row := [{ common := some "cat", latin := none, taxid := none }]

/-! ## Claim theorems. -/

/-- Claim C1: after the final merge step of the processor, for every row
and each of the three output columns, the final value equals the value
the matching temp column holds at merge time (for the taxid column this
is the value after the sentinel carry of the merge step) when that temp
value is present, and equals the pre-existing post-cleaning column value
when the temp value is missing; a missing temp value never clears a
prior value. -/
theorem c1_merge_invariant (env : Env) (df0 : List Row) (i : Nat) (r : Row)
    (h : (premergeRows env df0)[i]? = some r) :
    ∃ out, (process_taxonomy_csv env df0)[i]? = some out ∧
      out.common = fillna r.temp_common r.common ∧
      out.latin = fillna r.temp_latin r.latin ∧
      out.taxid = fillna r.temp_taxid r.taxid ∧
      (r.temp_common = none → out.common = r.common) ∧
      (r.temp_latin = none → out.latin = r.latin) ∧
      (r.temp_taxid = none → out.taxid = r.taxid) := by
  refine ⟨mergeRow r, ?_, rfl, rfl, rfl, ?_, ?_, ?_⟩
  · rw [process_taxonomy_csv, List.getElem?_map, h]
    rfl
  · intro h0
    simp [mergeRow, fillna, h0]
  · intro h0
    simp [mergeRow, fillna, h0]
  · intro h0
    simp [mergeRow, fillna, h0]

/-- Closed instance of claim C1 on the demo run. -/
theorem c1_merge_invariant_witness :
    (premergeRows demoEnv demoDf)[0]? = some
      { common := some "cat", latin := none, taxid := none,
        temp_common := none, temp_latin := some "Felis catus",
        temp_taxid := some "9685" } ∧
    ∃ out, (process_taxonomy_csv demoEnv demoDf)[0]? = some out ∧
      out.common = fillna none (some "cat") ∧
      out.latin = fillna (some "Felis catus") none ∧
      out.taxid = fillna (some "9685") none ∧
      ((none : Option String) = none → out.common = some "cat") ∧
      (some "Felis catus" = (none : Option String) → out.latin = none) ∧
      (some "9685" = (none : Option String) → out.taxid = none) :=
  ⟨by decide, c1_merge_invariant demoEnv demoDf 0
    { common := some "cat", latin := none, taxid := none,
      temp_common := none, temp_latin := some "Felis catus",
      temp_taxid := some "9685" } (by decide)⟩

/-- Claim C2: after cleaning, the primary mask and the fallback mask
select disjoint row sets, and together with the rows whose two names
are both invalid they cover the whole row set exactly. -/
theorem c2_partition_invariant (df0 : List Row) :
    (∀ r, r ∈ cleanedDf df0 →
      (primaryRow r && fallbackRow r) = false ∧
      (primaryRow r && neitherRow r) = false ∧
      (fallbackRow r && neitherRow r) = false ∧
      (primaryRow r || fallbackRow r || neitherRow r) = true) ∧
    ((cleanedDf df0).filter primaryRow).length +
      ((cleanedDf df0).filter fallbackRow).length +
      ((cleanedDf df0).filter neitherRow).length = (cleanedDf df0).length := by
  constructor
  · intro r hr
    cases hc : is_invalid r.common <;> cases hl : is_invalid r.latin <;>
      simp [primaryRow, fallbackRow, neitherRow, hc, hl]
  · exact partition_count _

/-- Claim C4: when every oracle call for a name fails, the batch
resolver performs exactly 3 attempts for that name with the sleep
schedule 2, 4, 6 seconds, records the bare failure sentinel as the
mapped result of the name, and still produces an outcome for every
other input name; the latin-to-common batch resolver runs the identical
loop. -/
theorem c4_retry_exhaustion (call : String → Nat → String) (names : List String)
    (name : String) (hmem : name ∈ names) (honce : names.count name = 1)
    (hfail : ∀ i, containsSubstr (call name i) "GLM call failed" = true) :
    dget (batch_common_to_latin call names).map name = some "GLM call failed" ∧
    ((batch_common_to_latin call names).calls.filter (fun c => c.1 == name)).length = 3 ∧
    ((batch_common_to_latin call names).sleeps.filter (fun c => c.1 == name)).map
      (fun c => c.2) = [2, 4, 6] ∧
    (∀ n, n ∈ names → (dget (batch_common_to_latin call names).map n).isSome = true) ∧
    batch_latin_to_common call names = batch_common_to_latin call names := by
  have hr := glmRetry_all_failed (call name) hfail
  have hfilter : names.filter (fun n => n == name) = [name] := by
    have hcount : (names.filter (fun n => n == name)).length = 1 := by
      rw [← List.countP_eq_length_filter]
      simpa [List.count] using honce
    rcases List.length_eq_one.mp hcount with ⟨a, ha⟩
    have hmem2 : a ∈ names.filter (fun n => n == name) := by
      rw [ha]
      exact List.mem_cons_self _ _
    have haeq : a = name := by simpa using (List.mem_filter.mp hmem2).2
    rw [ha, haeq]
  refine ⟨?_, ?_, ?_, ?_, rfl⟩
  · rw [batch_common_to_latin, dget_batchResolve_map, if_pos hmem, hr]
  · rw [batch_common_to_latin, batchResolve_calls_filter, hfilter]
    simp [hr]
  · rw [batch_common_to_latin, batchResolve_sleeps_filter, hfilter]
    simp [hr]
  · intro n hn
    rw [batch_common_to_latin, dget_batchResolve_map, if_pos hn]
    rfl

/-- Closed instance of claim C4: an always-failing oracle on a
two-name batch. -/
theorem c4_retry_exhaustion_witness :
    ("cat" ∈ ["cat", "dog"] ∧ ["cat", "dog"].count "cat" = 1) ∧
    dget (batch_common_to_latin (fun _ _ => "GLM call failed: boom") ["cat", "dog"]).map
        "cat" = some "GLM call failed" ∧
    ((batch_common_to_latin (fun _ _ => "GLM call failed: boom") ["cat", "dog"]).sleeps.filter
        (fun c => c.1 == "cat")).map (fun c => c.2) = [2, 4, 6] :=
  ⟨⟨by decide, by decide⟩,
    (c4_retry_exhaustion (fun _ _ => "GLM call failed: boom") ["cat", "dog"] "cat"
      (by decide) (by decide) (fun _ => rfl)).1,
    ((c4_retry_exhaustion (fun _ _ => "GLM call failed: boom") ["cat", "dog"] "cat"
      (by decide) (by decide) (fun _ => rfl)).2).2.1⟩

/-- Claim C5 fails as stated: with the repeated input list cat, cat and
an oracle that succeeds immediately, the batch resolver invokes the
oracle twice for the single distinct name cat, not at most once. -/
theorem c5_dedup_counterexample :
    ¬ (((batch_common_to_latin (fun _ _ => "Felis catus") ["cat", "cat"]).calls.filter
        (fun c => c.1 == "cat")).length ≤ 1) := by
  decide

/-- Claim C5 amended: the batch resolver invokes the oracle between one
and three times per occurrence of a name in the input list (so
deduplication is the responsibility of the callers, which pass unique
name lists), and the returned mapping holds exactly one outcome per
distinct input name. -/
theorem c5_dedup_amended (call : String → Nat → String) (names : List String) :
    (dkeys (batch_common_to_latin call names).map).Nodup ∧
    (∀ k, (dget (batch_common_to_latin call names).map k).isSome = true ↔ k ∈ names) ∧
    (∀ k, names.count k ≤
        ((batch_common_to_latin call names).calls.filter (fun c => c.1 == k)).length) ∧
    (∀ k, ((batch_common_to_latin call names).calls.filter (fun c => c.1 == k)).length ≤
        3 * names.count k) := by
  have hsum : ∀ (l : List String),
      l.length ≤ (l.map (fun n => (glmRetry (call n)).attempts)).sum ∧
      (l.map (fun n => (glmRetry (call n)).attempts)).sum ≤ 3 * l.length := by
    intro l
    induction l with
    | nil => simp
    | cons x t ih =>
        have hb := glmRetry_attempts_bounds (call x)
        simp only [List.map_cons, List.sum_cons, List.length_cons]
        omega
  refine ⟨?_, ?_, ?_, ?_⟩
  · exact batchResolve_map_keys_nodup call names [] (by simp [dkeys])
  · intro k
    rw [batch_common_to_latin, dget_batchResolve_map]
    by_cases hk : k ∈ names
    · simp [hk]
    · simp [hk, dget]
  · intro k
    rw [batch_common_to_latin, batchResolve_calls_filter]
    have hc : names.count k = (names.filter (fun n => n == k)).length := by
      rw [← List.countP_eq_length_filter]
      rfl
    rw [hc]
    exact (hsum _).1
  · intro k
    rw [batch_common_to_latin, batchResolve_calls_filter]
    have hc : names.count k = (names.filter (fun n => n == k)).length := by
      rw [← List.countP_eq_length_filter]
      rfl
    rw [hc]
    exact (hsum _).2

/-- Claim C6: the identifier lookup has fail-batch semantics. An empty
input yields the empty mapping for every possible service behaviour,
so the service is never consulted; and when the service raises, every
input name is mapped to the one categorized error string, which is the
cache, network or generic format chosen by keyword. -/
theorem c6_fail_batch (svc : List String → Except String (List (String × List Nat)))
    (names : List String) (e : String)
    (hsvc : svc names = Except.error e) (hne : names ≠ []) :
    batch_latin_to_taxid_ete3 svc [] = [] ∧
    (∀ n, n ∈ names →
      dget (batch_latin_to_taxid_ete3 svc names) n = some (classifyTaxidError e)) ∧
    (classifyTaxidError e = "Cache error: " ++ e ∨
      classifyTaxidError e = "Network error: " ++ e ∨
      classifyTaxidError e = "Error: " ++ e) := by
  refine ⟨rfl, ?_, ?_⟩
  · intro n hn
    exact dget_batch_taxid_error svc names e hsvc
      (by simpa using hne) n hn
  · rw [classifyTaxidError]
    by_cases h1 : [ "cache", "taxdump", "sqlite" ].any (fun k => containsSubstr (pyLower e) k)
    · rw [if_pos h1]
      exact Or.inl rfl
    · rw [if_neg h1]
      by_cases h2 : [ "connection", "network", "download" ].any
          (fun k => containsSubstr (pyLower e) k)
      · rw [if_pos h2]
        exact Or.inr (Or.inl rfl)
      · rw [if_neg h2]
        exact Or.inr (Or.inr rfl)

/-- Closed instance of claim C6: a network failure fails the whole
two-name batch. -/
theorem c6_fail_batch_witness :
    ((fun (_ : List String) =>
        (Except.error "connection timeout" : Except String (List (String × List Nat))))
      ["Felis catus", "Canis lupus"] = Except.error "connection timeout" ∧
      (["Felis catus", "Canis lupus"] : List String) ≠ []) ∧
    (∀ n, n ∈ (["Felis catus", "Canis lupus"] : List String) →
      dget (batch_latin_to_taxid_ete3 (fun _ => Except.error "connection timeout")
        ["Felis catus", "Canis lupus"]) n =
          some (classifyTaxidError "connection timeout")) :=
  ⟨⟨rfl, by decide⟩,
    (c6_fail_batch (fun _ => Except.error "connection timeout")
      ["Felis catus", "Canis lupus"] "connection timeout" rfl (by decide)).2.1⟩

/-! ## Projection lemmas for the guarded stages. -/

theorem primaryOut_lookup_cases (env : Env) (df0 : List Row) :
    (primaryOut env df0).2 = primUniqueLatin env df0 ∨ (primaryOut env df0).2 = [] := by
  by_cases h : 0 < ((cleanedDf df0).filter primaryRow).length
  · exact Or.inl (by simp [primaryOut, h])
  · exact Or.inr (by simp [primaryOut, h])

theorem fallbackB_taxid1_cases (env : Env) (df0 : List Row) :
    (fallbackBOut env df0).2.2 = fbTaxid1 env df0 ∨ (fallbackBOut env df0).2.2 = [] := by
  by_cases h : 0 < ((primaryOut env df0).1.filter fallbackRow).length
  · exact Or.inl (by simp [fallbackBOut, h])
  · exact Or.inr (by simp [fallbackBOut, h])

theorem fallbackB_taxid1_nodup (env : Env) (df0 : List Row) :
    (dkeys (fallbackBOut env df0).2.2).Nodup := by
  rcases fallbackB_taxid1_cases env df0 with h | h
  · rw [h, fbTaxid1]
    exact batch_taxid_keys_nodup _ _
  · rw [h]
    simp [dkeys]

/-- Rows the primary mask keeps valid have a keepName-filtered batch:
every name in the primary lookup batch survived the value filter. -/
theorem primary_lookup_keep (env : Env) (df0 : List Row) (s : String)
    (h : s ∈ (primaryOut env df0).2) : keepName s = true := by
  rcases primaryOut_lookup_cases env df0 with hc | hc
  · rw [hc, primUniqueLatin] at h
    exact (List.mem_filter.mp ((mem_uniqueList _ _).mp h)).2
  · rw [hc] at h
    simp at h

/-- Claim C7: a row whose temp latin holds the unrecognizable or the GLM
failure sentinel while temp taxid is missing receives that same sentinel
as taxid in the sentinel carry; consequently, a row whose valid common
name always resolves to unrecognizable ends with latin and taxid both
unrecognizable, and the unrecognizable marker is never part of the
primary identifier-lookup batch. -/
theorem c7_sentinel_carry (env : Env) (df0 : List Row) (i : Nat) (r : Row) (name : String)
    (hget : (cleanedDf df0)[i]? = some r)
    (hcommon : r.common = some name)
    (hvalid : is_invalid (some name) = false)
    (horacle : ∀ j, env.glm1 name j = "unrecognizable") :
    (∀ x : Row, x.temp_taxid = none →
      (x.temp_latin = some "unrecognizable" →
        (carryRow x).temp_taxid = some "unrecognizable") ∧
      (x.temp_latin = some "GLM call failed" →
        (carryRow x).temp_taxid = some "GLM call failed")) ∧
    ((process_taxonomy_csv env df0)[i]?).map (fun out => out.latin) =
      some (some "unrecognizable") ∧
    ((process_taxonomy_csv env df0)[i]?).map (fun out => out.taxid) =
      some (some "unrecognizable") ∧
    (∀ s, s ∈ (primaryOut env df0).2 → containsSubstr s "unrecognizable" = false) := by
  have hpr : primaryRow r = true := by
    rw [primaryRow, hcommon, hvalid]
    rfl
  have hmemdf : r ∈ cleanedDf df0 := List.getElem?_mem hget
  have huniq : name ∈ primUniqueCommon df0 := by
    rw [primUniqueCommon]
    refine (mem_uniqueList _ _).mpr (List.mem_filterMap.mpr ⟨r, ?_, ?_⟩)
    · exact List.mem_filter.mpr ⟨hmemdf, hpr⟩
    · rw [hcommon]
  have hfirst : containsSubstr (env.glm1 name 0) "GLM call failed" = false := by
    rw [horacle 0]
    decide
  have hglm : (glmRetry (env.glm1 name)).result = "unrecognizable" := by
    rw [glmRetry_first_success (env.glm1 name) hfirst]
    exact horacle 0
  have hlmap : dget (primLatinMap env df0) name = some "unrecognizable" := by
    rw [primLatinMap, batch_common_to_latin, dget_batchResolve_map, if_pos huniq, hglm]
  have hnotmem : "unrecognizable" ∉ primUniqueLatin env df0 := by
    intro hmem
    rw [primUniqueLatin] at hmem
    have hk := (List.mem_filter.mp ((mem_uniqueList _ _).mp hmem)).2
    have hfalse : keepName "unrecognizable" = false := by decide
    rw [hfalse] at hk
    exact Bool.false_ne_true hk
  have htax : dget (primTaxidMap env df0) "unrecognizable" = none := by
    rw [primTaxidMap]
    exact dget_batch_taxid_none _ _ _ hnotmem
  have hr1 : primUpdate env df0 r =
      { r with temp_latin := some "unrecognizable", temp_taxid := none } := by
    rw [primUpdate, if_pos hpr, hcommon]
    simp [hlmap, htax]
  have hfb : fbUpdate env df0 (primUpdate env df0 r) = primUpdate env df0 r := by
    have hmask : fallbackRow (primUpdate env df0 r) = false := by
      rw [hr1]
      simp [fallbackRow, hcommon, hvalid]
    rw [fbUpdate, if_neg (by rw [hmask]; simp)]
  have ha2 : a2Update env df0 (primUpdate env df0 r) = primUpdate env df0 r := by
    have hmask : fallbackRow (primUpdate env df0 r) = false := by
      rw [hr1]
      simp [fallbackRow, hcommon, hvalid]
    rw [a2Update, if_neg (by rw [attempt2Row, hmask]; simp)]
  have hchain : (process_taxonomy_csv env df0)[i]? =
      some (mergeRow (carryRow (primUpdate env df0 r))) := by
    rw [process_getElem, fallbackCOut_rows_getElem, fallbackBOut_rows_getElem,
      primaryOut_rows_getElem, hget]
    simp [hfb, ha2]
  refine ⟨?_, ?_, ?_, ?_⟩
  · intro x hx
    constructor
    · intro hl
      simp [carryRow, fillna, hx, hl, sentinelMap]
    · intro hl
      simp [carryRow, fillna, hx, hl, sentinelMap]
  · rw [hchain, hr1]
    simp [carryRow, mergeRow, fillna, sentinelMap]
  · rw [hchain, hr1]
    simp [carryRow, mergeRow, fillna, sentinelMap]
  · intro s hs
    have hk := primary_lookup_keep env df0 s hs
    rw [keepName, Bool.and_eq_true] at hk
    simpa using hk.2

/-- Closed instance of claim C7: a valid common name whose oracle answer
is always unrecognizable. -/
theorem c7_sentinel_carry_witness :
    ((cleanedDf [{ common := some "blork", latin := none, taxid := some "old" }])[0]? =
      some { common := some "blork", latin := none, taxid := some "old" } ∧
      is_invalid (some "blork") = false) ∧
    ((process_taxonomy_csv
        { glm1 := fun _ _ => "unrecognizable", glm2 := fun _ _ => "x",
          glm3 := fun _ _ => "x", ncbi1 := fun _ => Except.ok [("Felis catus", [9685])],
          ncbi2 := fun _ => Except.ok [], ncbi3 := fun _ => Except.ok [] }
        [{ common := some "blork", latin := none, taxid := some "old" }])[0]?).map
      (fun out => out.taxid) = some (some "unrecognizable") :=
  ⟨⟨by decide, by decide⟩,
    (c7_sentinel_carry
      { glm1 := fun _ _ => "unrecognizable", glm2 := fun _ _ => "x",
        glm3 := fun _ _ => "x", ncbi1 := fun _ => Except.ok [("Felis catus", [9685])],
        ncbi2 := fun _ => Except.ok [], ncbi3 := fun _ => Except.ok [] }
      [{ common := some "blork", latin := none, taxid := some "old" }] 0
      { common := some "blork", latin := none, taxid := some "old" } "blork"
      (by decide) (by decide) (by decide) (fun _ => rfl)).2.2.1⟩

/-- Claim C8: the attempt-2 overwrite touches temp latin and temp taxid
only on rows of the retryable subset, where it writes the values joined
through temp common; every other row keeps its attempt-1 temp values,
and no row has temp common, the canonical columns or the taxid column
changed by the cascade step. -/
theorem c8_cascade_frame (env : Env) (df0 : List Row) (i : Nat) (r : Row)
    (h : (fallbackBOut env df0).1[i]? = some r) :
    ∃ r2, (fallbackCOut env df0).1[i]? = some r2 ∧
      r2.temp_common = r.temp_common ∧
      r2.common = r.common ∧ r2.latin = r.latin ∧ r2.taxid = r.taxid ∧
      (attempt2Row (runFailed env df0) r = false →
        r2.temp_latin = r.temp_latin ∧ r2.temp_taxid = r.temp_taxid) ∧
      (attempt2Row (runFailed env df0) r = true →
        r2.temp_latin = r.temp_common.bind (fun s => dget (a2ForwardMap env df0) s) ∧
        r2.temp_taxid = (r.temp_common.bind (fun s => dget (a2ForwardMap env df0) s)).bind
          (fun s => dget (a2Taxid2 env df0) s)) := by
  refine ⟨a2Update env df0 r, ?_, ?_, ?_, ?_, ?_, ?_, ?_⟩
  · rw [fallbackCOut_rows_getElem, h]
    rfl
  all_goals
    by_cases hm : attempt2Row (runFailed env df0) r = true
  · simp [a2Update, hm]
  · simp [a2Update, hm]
  · simp [a2Update, hm]
  · simp [a2Update, hm]
  · simp [a2Update, hm]
  · simp [a2Update, hm]
  · simp [a2Update, hm]
  · simp [a2Update, hm]
  · intro hc
    rw [hm] at hc
    exact absurd hc (by simp)
  · intro hc
    simp [a2Update, hm]
  · intro hc
    simp [a2Update, hm]
  · intro hc
    rw [hc] at hm
    exact absurd rfl hm

/-- The fallback frame used in closed cascade instances. -/
def cascadeDf : List Row :=
  [{ common := some "-", latin := some "Unknownus speciesus", taxid := none }]

/-- The row the fallback workflow produces for cascadeDf under demoEnv,
just before the cascade. -/
def cascadeRowB : Row :=
  { common := some "-", latin := some "Unknownus speciesus", taxid := none,
    temp_common := some "mystery beast", temp_latin := some "Unknownus speciesus",
    temp_taxid := some (notFoundMsg "Unknownus speciesus") }

/-- Closed instance of claim C8 on a retried fallback row. -/
theorem c8_cascade_frame_witness :
    (fallbackBOut demoEnv cascadeDf).1[0]? = some cascadeRowB ∧
    (∃ r2, (fallbackCOut demoEnv cascadeDf).1[0]? = some r2 ∧
      r2.temp_common = cascadeRowB.temp_common ∧
      r2.common = cascadeRowB.common ∧ r2.latin = cascadeRowB.latin ∧
      r2.taxid = cascadeRowB.taxid ∧
      (attempt2Row (runFailed demoEnv cascadeDf) cascadeRowB = false →
        r2.temp_latin = cascadeRowB.temp_latin ∧
        r2.temp_taxid = cascadeRowB.temp_taxid) ∧
      (attempt2Row (runFailed demoEnv cascadeDf) cascadeRowB = true →
        r2.temp_latin = cascadeRowB.temp_common.bind
          (fun s => dget (a2ForwardMap demoEnv cascadeDf) s) ∧
        r2.temp_taxid = (cascadeRowB.temp_common.bind
          (fun s => dget (a2ForwardMap demoEnv cascadeDf) s)).bind
            (fun s => dget (a2Taxid2 demoEnv cascadeDf) s))) :=
  ⟨by decide, c8_cascade_frame demoEnv cascadeDf 0 cascadeRowB (by decide)⟩

/-- Claim C9 fails as stated: a both-invalid row still has its name
columns cleaned before partitioning, so a decorated invalid value such
as a dash with surrounding spaces leaves the run with the stripped text
rather than the exact input value. -/
theorem c9_passthrough_counterexample :
    neitherRow (cleanRow { common := some " - ", latin := none, taxid := some "42" }) = true ∧
    ¬ (((process_taxonomy_csv demoEnv
          [{ common := some " - ", latin := none, taxid := some "42" }])[0]?).map
        (fun out => out.common) =
      (([{ common := some " - ", latin := none, taxid := some "42" }] : List Row)[0]?).map
        (fun r => r.common)) := by
  decide

/-- Claim C9 amended: a row whose two names are both invalid after
normalization belongs to neither partition and reaches the output with
its taxid value exactly as in the input and its two name columns equal
to their cleaned input values (hence unchanged whenever the input
carried no star decoration or surrounding whitespace). -/
theorem c9_passthrough_amended (env : Env) (df0 : List Row) (i : Nat) (r : Row)
    (hget : df0[i]? = some r) (hinv : neitherRow (cleanRow r) = true) :
    primaryRow (cleanRow r) = false ∧ fallbackRow (cleanRow r) = false ∧
    (process_taxonomy_csv env df0)[i]? = some
      { common := clean_name r.common, latin := clean_name r.latin, taxid := r.taxid,
        temp_common := none, temp_latin := none, temp_taxid := none } := by
  rw [neitherRow, Bool.and_eq_true] at hinv
  have hprim : primaryRow (cleanRow r) = false := by
    rw [primaryRow, hinv.1]
    rfl
  have hfall : fallbackRow (cleanRow r) = false := by
    rw [fallbackRow, hinv.2]
    simp
  have h1 : primUpdate env df0 (cleanRow r) = cleanRow r := by
    rw [primUpdate, if_neg (by rw [hprim]; simp)]
  have h2 : fbUpdate env df0 (cleanRow r) = cleanRow r := by
    rw [fbUpdate, if_neg (by rw [hfall]; simp)]
  have h3 : a2Update env df0 (cleanRow r) = cleanRow r := by
    rw [a2Update, if_neg (by rw [attempt2Row, hfall]; simp)]
  have hfinal : mergeRow (carryRow (cleanRow r)) =
      { common := clean_name r.common, latin := clean_name r.latin, taxid := r.taxid,
        temp_common := none, temp_latin := none, temp_taxid := none } := by
    rw [cleanRow, carryRow, mergeRow]
    simp [fillna]
  refine ⟨hprim, hfall, ?_⟩
  rw [process_getElem, fallbackCOut_rows_getElem, fallbackBOut_rows_getElem,
    primaryOut_rows_getElem, cleanedDf_getElem, hget]
  simp [h1, h2, h3, hfinal]

/-- Closed instance of amended claim C9. -/
theorem c9_passthrough_amended_witness :
    (([{ common := some " - ", latin := none, taxid := some "42" }] : List Row)[0]? =
      some { common := some " - ", latin := none, taxid := some "42" } ∧
      neitherRow (cleanRow { common := some " - ", latin := none, taxid := some "42" }) =
        true) ∧
    (process_taxonomy_csv demoEnv
        [{ common := some " - ", latin := none, taxid := some "42" }])[0]? = some
      { common := clean_name (some " - "), latin := clean_name none, taxid := some "42",
        temp_common := none, temp_latin := none, temp_taxid := none } :=
  ⟨⟨by decide, by decide⟩,
    (c9_passthrough_amended demoEnv
      [{ common := some " - ", latin := none, taxid := some "42" }] 0
      { common := some " - ", latin := none, taxid := some "42" }
      (by decide) (by decide)).2.2⟩

/-- Claim C10: a retryable fallback row whose temp common value is
excluded from the attempt-2 resolve batch (by the invalid, failed or
unrecognizable filter) gets both temp latin and temp taxid erased by the
attempt-2 mapping, so after the merge its latin and taxid columns revert
to the pre-existing post-cleaning column values instead of carrying the
attempt-1 not-found or error outcome. -/
theorem c10_cascade_erasure (env : Env) (df0 : List Row) (i : Nat) (r : Row) (s : String)
    (hb : (fallbackBOut env df0).1[i]? = some r)
    (h2 : attempt2Row (runFailed env df0) r = true)
    (hs : r.temp_common = some s)
    (hkeep : keepName s = false) :
    (((fallbackCOut env df0).1[i]?).map (fun x => (x.temp_latin, x.temp_taxid)) =
      some (none, none)) ∧
    (((process_taxonomy_csv env df0)[i]?).map (fun x => (x.latin, x.taxid)) =
      some (r.latin, r.taxid)) := by
  have hnot : s ∉ a2NewCommon env df0 := by
    intro hmem
    rw [a2NewCommon] at hmem
    rcases List.mem_filterMap.mp hmem with ⟨o, _, hoeq⟩
    cases o with
    | none => simp at hoeq
    | some t =>
        by_cases hk : keepName t = true
        · simp only [hk, if_true] at hoeq
          have : t = s := by simpa using hoeq
          rw [this, hkeep] at hk
          exact Bool.false_ne_true hk
        · simp only [hk, if_false] at hoeq
          exact absurd hoeq (by simp)
  have hdget : dget (a2ForwardMap env df0) s = none := by
    cases hd : dget (a2ForwardMap env df0) s with
    | none => rfl
    | some v =>
        exfalso
        rw [a2ForwardMap, batch_common_to_latin] at hd
        rcases batchResolve_map_keys_sub env.glm3 (a2NewCommon env df0) [] s
            (by rw [hd]; rfl) with hcase | hcase
        · exact hnot hcase
        · simp [dget] at hcase
  have hupd : a2Update env df0 r = { r with temp_latin := none, temp_taxid := none } := by
    rw [a2Update, if_pos h2, hs]
    simp [hdget]
  constructor
  · rw [fallbackCOut_rows_getElem, hb]
    simp [hupd]
  · rw [process_getElem, fallbackCOut_rows_getElem, hb]
    simp [hupd, carryRow, mergeRow, fillna]

/-- The external world for a closed cascade-erasure instance: the
reverse oracle answers unrecognizable, so the recovered common name is
excluded from the attempt-2 batch. -/
def eraseEnv : Env :=
  { glm1 := fun _ _ => "Felis catus",
    glm2 := fun _ _ => "unrecognizable",
    glm3 := fun _ _ => "Felis catus",
    ncbi1 := fun _ => Except.ok [],
    ncbi2 := fun _ => Except.ok [],
    ncbi3 := fun _ => Except.ok [] }

/-- The fallback frame of the cascade-erasure instance. -/
def eraseDf : List Row :=
  [{ common := none, latin := some "Mysterius beastus", taxid := some "7" }]

/-- The row the fallback workflow produces for eraseDf under eraseEnv,
just before the cascade. -/
def eraseRowB : Row :=
  { common := none, latin := some "Mysterius beastus", taxid := some "7",
    temp_common := some "unrecognizable", temp_latin := some "Mysterius beastus",
    temp_taxid := some (notFoundMsg "Mysterius beastus") }

/-- Closed instance of claim C10: the attempt-1 not-found outcome is
erased and the original latin and taxid values survive the merge. -/
theorem c10_cascade_erasure_witness :
    ((fallbackBOut eraseEnv eraseDf).1[0]? = some eraseRowB ∧
      attempt2Row (runFailed eraseEnv eraseDf) eraseRowB = true ∧
      keepName "unrecognizable" = false) ∧
    (((process_taxonomy_csv eraseEnv eraseDf)[0]?).map (fun x => (x.latin, x.taxid)) =
      some (some "Mysterius beastus", some "7")) :=
  ⟨⟨by decide, by decide, by decide⟩,
    (c10_cascade_erasure eraseEnv eraseDf 0 eraseRowB "unrecognizable"
      (by decide) (by decide) (by decide) (by decide)).2⟩

/-! ## Retry-trigger lemmas for claim C3. -/

theorem headMatches_append (pat rest : List Char) :
    headMatches pat (pat ++ rest) = true := by
  induction pat with
  | nil => rfl
  | cons a as ih => simp [headMatches, ih]

theorem subMatches_of_head (pat l : List Char) (h : headMatches pat l = true) :
    subMatches pat l = true := by
  cases l with
  | nil =>
      cases pat with
      | nil => rfl
      | cons c cs => simp [headMatches] at h
  | cons c rest =>
      rw [subMatches, h]
      rfl

theorem containsSubstr_append_left (p t : String) : containsSubstr (p ++ t) p = true := by
  rw [containsSubstr]
  exact subMatches_of_head p.data (p ++ t).data
    (by
      have hdata : (p ++ t).data = p.data ++ t.data := rfl
      rw [hdata]
      exact headMatches_append p.data t.data)

theorem headMatches_append_of (pat : List Char) :
    ∀ (l rest : List Char), headMatches pat l = true →
      headMatches pat (l ++ rest) = true := by
  induction pat with
  | nil => intro l rest _; rfl
  | cons a as ih =>
      intro l rest h
      cases l with
      | nil => simp [headMatches] at h
      | cons b bs =>
          rw [headMatches, Bool.and_eq_true] at h
          rw [List.cons_append, headMatches, h.1, ih bs rest h.2]
          rfl

theorem mem_failedLatin_sub (t1 : List (String × String)) (n : String)
    (h : n ∈ failedLatinNames t1) : n ∈ dkeys t1 := by
  rw [failedLatinNames] at h
  rcases List.mem_filterMap.mp h with ⟨p, hp, hpe⟩
  by_cases hc : (containsSubstr p.2 "Not found" || containsSubstr p.2 "Error") = true
  · rw [if_pos hc] at hpe
    have hn : p.1 = n := by simpa using hpe
    exact hn ▸ List.mem_map.mpr ⟨p, hp, rfl⟩
  · rw [if_neg hc] at hpe
    exact absurd hpe (by simp)

theorem mem_failedLatin_iff (t1 : List (String × String)) (hnd : (dkeys t1).Nodup)
    (n : String) (v : String) (hget : dget t1 n = some v) :
    n ∈ failedLatinNames t1 ↔
      (containsSubstr v "Not found" || containsSubstr v "Error") = true := by
  induction t1 with
  | nil => simp [dget] at hget
  | cons p rest ih =>
      rw [dkeys_cons, List.nodup_cons] at hnd
      by_cases hp : (p.1 == n) = true
      · have hp1 : p.1 = n := by simpa using hp
        rw [dget, if_pos hp] at hget
        have hv : p.2 = v := by simpa using hget
        rw [failedLatinNames, List.filterMap_cons]
        by_cases hc : (containsSubstr p.2 "Not found" || containsSubstr p.2 "Error") = true
        · simp only [hc, if_true]
          constructor
          · intro _
            rw [← hv]
            exact hc
          · intro _
            rw [← hp1]
            exact List.mem_cons_self _ _
        · simp only [hc, if_false]
          constructor
          · intro hmem
            exact absurd (hp1 ▸ mem_failedLatin_sub rest n hmem) hnd.1
          · intro hcon
            rw [← hv] at hcon
            exact absurd hcon hc
      · rw [dget, if_neg hp] at hget
        have hne : n ≠ p.1 := by
          intro hh
          exact hp (by simp [hh])
        rw [failedLatinNames, List.filterMap_cons]
        by_cases hc : (containsSubstr p.2 "Not found" || containsSubstr p.2 "Error") = true
        · simp only [hc, if_true]
          rw [List.mem_cons]
          constructor
          · intro hmem
            rcases hmem with h1 | h1
            · exact absurd h1 hne
            · exact (ih hnd.2 hget).mp h1
          · intro hcon
            exact Or.inr ((ih hnd.2 hget).mpr hcon)
        · simp only [hc, if_false]
          exact ih hnd.2 hget

/-- The external world of the closed retry-trigger counterexample: the
attempt-1 NCBI call raises a network exception. -/
def netFailEnv : Env :=
  { glm1 := fun _ _ => "Felis catus",
    glm2 := fun _ _ => "mystery beast",
    glm3 := fun _ _ => "Felis catus",
    ncbi1 := fun _ => Except.ok [],
    ncbi2 := fun _ => Except.error "connection refused",
    ncbi3 := fun _ => Except.ok [] }

/-- The fallback frame of the retry-trigger counterexample. -/
def netFailDf : List Row :=
  [{ common := none, latin := some "Xyzus abcus", taxid := none }]

/-- Claim C3 fails as stated: a fallback name whose attempt-1 outcome is
the network-category error string is not placed in the retryable subset,
because the code tests for the capital-E text Error while the network
and cache formats spell error in lower case. -/
theorem c3_retry_trigger_counterexample :
    fallbackRow (cleanRow { common := none, latin := some "Xyzus abcus", taxid := none }) =
      true ∧
    dget (fallbackBOut netFailEnv netFailDf).2.2 "Xyzus abcus" =
      some "Network error: connection refused" ∧
    ¬ ("Xyzus abcus" ∈ failedLatinNames (fallbackBOut netFailEnv netFailDf).2.2) := by
  refine ⟨by decide, by decide, by decide⟩

/-- Claim C3 amended: a fallback name enters the retryable subset if and
only if its attempt-1 outcome contains the text Not found or the
capital-E text Error; not-found outcomes and generic errors always
qualify, cache and network error outcomes qualify only when their
exception detail itself contains the capital-E text, and resolved
numeric identifier outcomes never do. -/
theorem c3_retry_trigger_amended (env : Env) (df0 : List Row) (n : String) (v : String)
    (hget : dget (fallbackBOut env df0).2.2 n = some v) :
    (n ∈ failedLatinNames (fallbackBOut env df0).2.2 ↔
      (containsSubstr v "Not found" || containsSubstr v "Error") = true) ∧
    (∀ name, containsSubstr (notFoundMsg name) "Not found" = true) ∧
    (∀ e, containsSubstr ("Error: " ++ e) "Error" = true) ∧
    (∀ t : Nat, (containsSubstr (natToStr t) "Not found" ||
        containsSubstr (natToStr t) "Error") = false) := by
  refine ⟨mem_failedLatin_iff _ (fallbackB_taxid1_nodup env df0) n v hget, ?_, ?_, ?_⟩
  · intro name
    have h0 : headMatches ("Not found" : String).data ("Not found: " : String).data = true := by
      decide
    have h1 := headMatches_append_of _ _ sq.data h0
    have h2 := headMatches_append_of _ _ name.data h1
    have h3 := headMatches_append_of _ _ sq.data h2
    exact subMatches_of_head _ _ h3
  · intro e
    have h0 : headMatches ("Error" : String).data ("Error: " : String).data = true := by
      decide
    have h1 := headMatches_append_of _ _ e.data h0
    exact subMatches_of_head _ _ h1
  · intro t
    have h := natToStr_no_retry_marker t
    simp [h.1, h.2]

/-- Closed instance of amended claim C3 on the network-failure run. -/
theorem c3_retry_trigger_amended_witness :
    dget (fallbackBOut netFailEnv netFailDf).2.2 "Xyzus abcus" =
      some "Network error: connection refused" ∧
    ("Xyzus abcus" ∈ failedLatinNames (fallbackBOut netFailEnv netFailDf).2.2 ↔
      (containsSubstr "Network error: connection refused" "Not found" ||
        containsSubstr "Network error: connection refused" "Error") = true) :=
  ⟨by decide,
    (c3_retry_trigger_amended netFailEnv netFailDf "Xyzus abcus"
      "Network error: connection refused" (by decide)).1⟩

end TaxAgent
